import Mathlib

/-!
# Sequence statement builder (pkg/snowflake/sequence.go)

A shallow embedding of the sequence builder and of the listing helpers.

* Go strings are embedded as `String`; concatenation and interpolation act on
  the underlying character lists.
* Go `int` fields are embedded as `Int`. The program performs no arithmetic on
  them, it only compares them with `1` and prints them.
* `fmt.Sprintf` is embedded as an interpreter of the format string for the
  verbs the program uses (`%v`, `%d`, `%s`, `%%`) together with the diagnostics
  of the formatting package for missing operands, surplus operands and verbs
  that do not fit the operand. Flags, widths and the remaining verbs are not
  used by the program and are outside the embedded fragment.
* The builder methods have pointer receivers. The renderers only read the
  receiver and are embedded as functions of the receiver's value; the setters
  write one field and are embedded both as a transformer of the receiver's
  value and as an operation on a heap of builders that returns a pointer.
* The database handle is embedded by what its calls return: the outcome of the
  query and the outcome of decoding the cursor.
-/

namespace Snowflake

/-! ## Formatting -/

/-- Operand of a formatting call: the program passes strings and ints. -/
inductive Arg where
  | str (s : String)
  | int (n : Int)
deriving DecidableEq, Repr

/-- The single quote character. -/
def quote : Char := Char.ofNat 39

/-- Decimal rendering of an int, as printed by the verb `%d`: a minus sign for
negative values followed by the digits of the magnitude, most significant first. -/
def fmtInt : Int → List Char
  | Int.ofNat n => Nat.toDigits 10 n
  | Int.negSucc n => '-' :: Nat.toDigits 10 (n + 1)

/-- Type name printed in the diagnostics of the formatting package. -/
def typeName : Arg → List Char
  | Arg.str _ => "string".data
  | Arg.int _ => "int".data

/-- Default rendering of an operand (verb `%v`). -/
def fmtValue : Arg → List Char
  | Arg.str s => s.data
  | Arg.int n => fmtInt n

/-- Diagnostic for a verb that does not fit its operand: `%!verb(type=value)`. -/
def badVerb (verb : Char) (a : Arg) : List Char :=
  "%!".data ++ verb :: '(' :: typeName a ++ '=' :: fmtValue a ++ [')']

/-- Rendering of one operand under one verb. -/
def fmtVerb (verb : Char) : Arg → List Char
  | Arg.str s => if verb = 'v' ∨ verb = 's' then s.data else badVerb verb (Arg.str s)
  | Arg.int n => if verb = 'v' ∨ verb = 'd' then fmtInt n else badVerb verb (Arg.int n)

/-- Listing of surplus operands inside the `%!(EXTRA ...)` diagnostic. -/
def fmtExtra : List Arg → List Char
  | [] => []
  | [a] => typeName a ++ '=' :: fmtValue a
  | a :: b :: rest => typeName a ++ '=' :: fmtValue a ++ ", ".data ++ fmtExtra (b :: rest)

/-- One left-to-right pass over the format: literal characters are copied, each
verb consumes the next operand. Operand text is emitted as is and is never
scanned for verbs. -/
def sprintfAux : List Char → List Arg → List Char
  | [], [] => []
  | [], a :: rest => "%!(EXTRA ".data ++ fmtExtra (a :: rest) ++ [')']
  | c :: fs, args =>
    if c = '%' then
      match fs, args with
      | [], _ => "%!(NOVERB)".data
      | v :: fs', [] =>
        if v = '%' then '%' :: sprintfAux fs' []
        else "%!".data ++ v :: "(MISSING)".data ++ sprintfAux fs' []
      | v :: fs', a :: rest =>
        if v = '%' then '%' :: sprintfAux fs' (a :: rest)
        else fmtVerb v a ++ sprintfAux fs' rest
    else c :: sprintfAux fs args

/-- Embedding of `fmt.Sprintf(format, args...)`. -/
def Sprintf (format : String) (args : List Arg) : String :=
  ⟨sprintfAux format.data args⟩

/-! ## Reading decimal numerals (used to state what "decimal" means) -/

/-- Value of a decimal digit character. -/
def digitVal (c : Char) : Option Nat :=
  if 48 ≤ c.toNat ∧ c.toNat ≤ 57 then some (c.toNat - 48) else none

/-- Left-to-right accumulation of decimal digits. -/
def parseNatAux : Nat → List Char → Option Nat
  | acc, [] => some acc
  | acc, c :: cs =>
    match digitVal c with
    | some d => parseNatAux (acc * 10 + d) cs
    | none => none

/-- Reads a non-empty string of decimal digits. -/
def parseNat (cs : List Char) : Option Nat :=
  if cs = [] then none else parseNatAux 0 cs

/-- Reads an optionally negated decimal numeral. -/
def parseInt : List Char → Option Int
  | [] => none
  | c :: cs =>
    if c = '-' then (parseNat cs).map (fun n => -(n : Int))
    else (parseNat (c :: cs)).map (fun n => (n : Int))

/-! ## Escaping -/

/-- Modelled from the spec: the helper `EscapeString` that `Create` applies to the
comment is defined in another file of the package, which is not part of the
sources at hand. The spec asks for comment text to be "escaped for embedding
inside a single-quoted SQL string literal (quote-doubling or equivalent)"; this
is quote-doubling: every single quote is written twice, every other character
is kept. -/
def escapeChars : List Char → List Char
  | [] => []
  | c :: cs => if c = quote then quote :: quote :: escapeChars cs else c :: escapeChars cs

/-- Modelled from the spec: `EscapeString` on strings, see `escapeChars`. -/
def EscapeString (s : String) : String :=
  ⟨escapeChars s.data⟩

/-- Modelled from the spec: the inverse unescaping of the round-trip property
("escaping then unescaping recovers the original text"). A doubled quote stands
for one quote; a quote that is not doubled is not an escaped text and is
rejected. -/
def unescapeChars : List Char → Option (List Char)
  | [] => some []
  | c :: cs =>
    if c = quote then
      match cs with
      | [] => none
      | d :: ds => if d = quote then (unescapeChars ds).map (fun r => quote :: r) else none
    else (unescapeChars cs).map (fun r => c :: r)

/-- Modelled from the spec: unescaping on strings, see `unescapeChars`. -/
def UnescapeString (s : String) : Option String :=
  (unescapeChars s.data).map String.mk

/-- Reader of a single-quoted SQL literal, started right after the opening
quote: returns the text denoted by the literal and what follows its closing
quote. A doubled quote denotes a quote, a single one closes the literal. -/
def readLiteral : List Char → Option (List Char × List Char)
  | [] => none
  | c :: cs =>
    if c = quote then
      match cs with
      | [] => some ([], [])
      | d :: ds =>
        if d = quote then (readLiteral ds).map (fun r => (quote :: r.1, r.2))
        else some ([], d :: ds)
    else (readLiteral cs).map (fun r => (c :: r.1, r.2))

/-! ## The builder -/

/-- The builder `SequenceBuilder`, field by field. -/
structure SequenceBuilder where
  name : String
  db : String
  schema : String
  increment : Int
  comment : String
  start : Int
deriving DecidableEq, Repr

/-- The constructor `Sequence(name, db, schema)`: the value of the struct it
allocates. The field `comment` is not named in the literal and takes the zero
value of its type. -/
def Sequence (name db schema : String) : SequenceBuilder where
  name := name
  db := db
  schema := schema
  increment := 1
  comment := ""
  start := 1

namespace SequenceBuilder

/-- Method `QualifiedName`. -/
def QualifiedName (tb : SequenceBuilder) : String :=
  Sprintf "\"%v\".\"%v\".\"%v\"" [Arg.str tb.db, Arg.str tb.schema, Arg.str tb.name]

/-- Method `Drop`. -/
def Drop (tb : SequenceBuilder) : String :=
  Sprintf "DROP SEQUENCE %v" [Arg.str tb.QualifiedName]

/-- Method `Show`. -/
def Show (tb : SequenceBuilder) : String :=
  Sprintf "SHOW SEQUENCES LIKE '%v' IN SCHEMA \"%v\".\"%v\""
    [Arg.str tb.name, Arg.str tb.db, Arg.str tb.schema]

/-- Method `RemoveComment`. -/
def RemoveComment (tb : SequenceBuilder) : String :=
  Sprintf "ALTER SEQUENCE %v UNSET COMMENT" [Arg.str tb.QualifiedName]

/-- Method `ChangeComment`. -/
def ChangeComment (tb : SequenceBuilder) (comment : String) : String :=
  Sprintf "ALTER SEQUENCE %v SET COMMENT = '%v'" [Arg.str tb.QualifiedName, Arg.str comment]

/-- Method `Rename`. -/
def Rename (tb : SequenceBuilder) (name : String) : String :=
  Sprintf "ALTER SEQUENCE %v RENAME TO \"%v\".\"%v\".\"%v\""
    [Arg.str tb.QualifiedName, Arg.str tb.db, Arg.str tb.schema, Arg.str name]

/-- Method `Increment`. -/
def Increment (tb : SequenceBuilder) : String :=
  Sprintf "SELECT %v.nextval" [Arg.str tb.QualifiedName]

/-- Method `Create`: the string builder `q` is threaded through the three
conditional writes. -/
def Create (tb : SequenceBuilder) : String :=
  let q := ""
  let q := q ++ Sprintf "CREATE SEQUENCE %v" [Arg.str tb.QualifiedName]
  let q := if tb.start ≠ 1 then q ++ Sprintf " START = %d" [Arg.int tb.start] else q
  let q := if tb.increment ≠ 1 then q ++ Sprintf " INCREMENT = %d" [Arg.int tb.increment] else q
  let q := if tb.comment ≠ "" then
      q ++ Sprintf " COMMENT = '%v'" [Arg.str (EscapeString tb.comment)] else q
  q

/-- Method `WithComment`, as a transformer of the receiver's value. -/
def WithComment (tb : SequenceBuilder) (comment : String) : SequenceBuilder :=
  { tb with comment := comment }

/-- Method `WithIncrement`, as a transformer of the receiver's value. -/
def WithIncrement (tb : SequenceBuilder) (increment : Int) : SequenceBuilder :=
  { tb with increment := increment }

/-- Method `WithStart`, as a transformer of the receiver's value. -/
def WithStart (tb : SequenceBuilder) (start : Int) : SequenceBuilder :=
  { tb with start := start }

end SequenceBuilder

/-! ## Builders behind pointers -/

/-- Address of a builder. -/
abbrev Ptr := Nat

/-- The builders allocated so far; a pointer is an index into the list. A
pointer outside the list stands for a nil receiver. -/
abbrev Heap := List SequenceBuilder

namespace Heap

/-- The constructor `Sequence`: allocates the struct and returns its address. -/
def Sequence (h : Heap) (name db schema : String) : Heap × Ptr :=
  (h ++ [Snowflake.Sequence name db schema], h.length)

/-- Method `WithComment` on a pointer receiver: writes the field in place and
returns the receiver. The write through a nil receiver panics (`none`). -/
def WithComment (h : Heap) (tb : Ptr) (comment : String) : Option (Heap × Ptr) :=
  match h[tb]? with
  | none => none
  | some v => some (h.set tb (v.WithComment comment), tb)

/-- Method `WithIncrement` on a pointer receiver. -/
def WithIncrement (h : Heap) (tb : Ptr) (increment : Int) : Option (Heap × Ptr) :=
  match h[tb]? with
  | none => none
  | some v => some (h.set tb (v.WithIncrement increment), tb)

/-- Method `WithStart` on a pointer receiver. -/
def WithStart (h : Heap) (tb : Ptr) (start : Int) : Option (Heap × Ptr) :=
  match h[tb]? with
  | none => none
  | some v => some (h.set tb (v.WithStart start), tb)

end Heap

/-! ## Listing -/

/-- Error values that reach the listing code: the sentinel `sql.ErrNoRows`, any
other error produced by the driver or the decoder, and an error annotated with
a message by the error-wrapping package. Comparison with `==` in the source is
equality of these values. -/
inductive GoError where
  | ErrNoRows
  | failure (msg : String)
  | withMessage (cause : GoError) (msg : String)
deriving DecidableEq, Repr

namespace GoError

/-- The text of an error (method `Error`): an annotated error prints its
message, a colon and the text of its cause. -/
def Error : GoError → String
  | ErrNoRows => "sql: no rows in result set"
  | failure msg => msg
  | withMessage cause msg => msg ++ ": " ++ cause.Error

/-- Whether the first error is the second one annotated with a message. -/
def wraps : GoError → GoError → Bool
  | withMessage cause _, e => decide (cause = e)
  | _, _ => false

end GoError

/-- Embedding of `errors.Wrapf(err, format, args...)`: nil stays nil, any other
error is annotated with the formatted message. -/
def Wrapf (err : Option GoError) (format : String) (args : List Arg) : Option GoError :=
  match err with
  | none => none
  | some e => some (GoError.withMessage e (Sprintf format args))

/-- The record `sequence`: every column is a nullable string. -/
structure sequence where
  Name : Option String
  DBName : Option String
  SchemaName : Option String
  NextValue : Option String
  Increment : Option String
  CreatedOn : Option String
  Owner : Option String
  Comment : Option String
deriving DecidableEq, Repr

/-- An open cursor, given by what scanning it into a slice of records yields:
the records decoded from its rows, in the order of the rows, and the error the
scan reports (nil when all rows decode). -/
structure Rows where
  decoded : List sequence
  scanErr : Option GoError

/-- Embedding of `sqlx.StructScan(rows, &dbs)`: the decoded records are appended
to the destination slice and the scan error is returned. -/
def StructScan (rows : Rows) (dest : List sequence) : List sequence × Option GoError :=
  (dest ++ rows.decoded, rows.scanErr)

/-- The database handle, given by what `Queryx` returns for a statement: a
cursor, or the error of the failed query. -/
structure DB where
  Queryx : String → Except GoError Rows

/-- What a call of `ListSequences` produces: the returned slice (`none` is the
nil slice), the returned error (`none` is nil), the lines written to the log
and whether the deferred close of the cursor ran. -/
structure ListResult where
  records : Option (List sequence)
  err : Option GoError
  logged : List String
  closed : Bool
deriving DecidableEq, Repr

/-- Function `ListSequences`. -/
def ListSequences (sdb : DB) : ListResult :=
  let stmt := "SHOW SEQUENCES"
  match sdb.Queryx stmt with
  | Except.error err => ⟨none, some err, [], false⟩
  | Except.ok rows =>
    let dbs : List sequence := []
    let scan := StructScan rows dbs
    if scan.2 = some GoError.ErrNoRows then
      ⟨none, none, ["[DEBUG] no sequence found"], true⟩
    else
      ⟨some scan.1, Wrapf scan.2 "unable to scan row for %s" [Arg.str stmt], [], true⟩

/-- A handle on which every query fails with a connection error. -/
def failingDB : DB where
  Queryx := fun _ => Except.error (GoError.failure "connection refused")

/-- A handle whose query succeeds and whose scan stops with a decoding error
after one record. -/
def brokenScanDB : DB where
  Queryx := fun _ =>
    Except.ok ⟨[⟨some "SEQ1", some "DB", some "PUBLIC", some "1", some "1", none, none, none⟩],
      some (GoError.failure "missing destination name extra")⟩

/-- Length of a returned slice; the nil slice has length zero. -/
def sliceLen (records : Option (List sequence)) : Nat :=
  match records with
  | none => 0
  | some l => l.length

/-- A cursor as the store delivers it: for each row, in the order of the store,
what decoding it gives (a record or the decoder's error), and the error the
iteration ends with once the rows are used up. -/
structure Cursor where
  results : List (Except GoError sequence)
  iterErr : Option GoError

/-- The loop of the library scan over a cursor: every decoded record is appended
to the destination, the first decoding error stops the scan and is returned,
and after the last row the error of the iteration is returned. -/
def scanLoop : List (Except GoError sequence) → Option GoError → List sequence →
    List sequence × Option GoError
  | [], iterErr, dest => (dest, iterErr)
  | Except.ok r :: rest, iterErr, dest => scanLoop rest iterErr (dest ++ [r])
  | Except.error e :: _, _, dest => (dest, some e)

/-- What scanning a cursor into an empty slice yields. -/
def Cursor.toRows (c : Cursor) : Rows where
  decoded := (scanLoop c.results c.iterErr []).1
  scanErr := (scanLoop c.results c.iterErr []).2

/-- A positioned row (`sqlx.Row`), given by what its method `StructScan` does
with a destination record: the record as the decoder leaves it and the error
the decoder returns. -/
structure Row where
  StructScan : sequence → sequence × Option GoError

/-- Function `ScanSequence`: the destination starts as the zero record. -/
def ScanSequence (row : Row) : sequence × Option GoError :=
  let d : sequence := ⟨none, none, none, none, none, none, none, none⟩
  let r := row.StructScan d
  (r.1, r.2)

/-- A record with the given name in a fixed schema. -/
def sampleRecord (name : String) : sequence :=
  ⟨some name, some "DB", some "PUBLIC", some "1", some "1", none, some "SYSADMIN", none⟩

/-- A handle whose query succeeds on a store without sequences. -/
def emptyDB : DB where
  Queryx := fun _ => Except.ok ⟨[], none⟩

/-- A handle whose query succeeds and whose scan reports `sql.ErrNoRows`. -/
def noRowsDB : DB where
  Queryx := fun _ => Except.ok ⟨[], some GoError.ErrNoRows⟩

/-- A cursor of three rows that all decode; two of them are equal. -/
def threeRows : Cursor where
  results := [Except.ok (sampleRecord "B"), Except.ok (sampleRecord "A"),
    Except.ok (sampleRecord "B")]
  iterErr := none

/-- A handle whose query returns the cursor `threeRows`. -/
def threeRowsDB : DB where
  Queryx := fun _ => Except.ok threeRows.toRows

/-- A row that decodes into the record named `SEQ1`. -/
def goodRow : Row where
  StructScan := fun _ => (sampleRecord "SEQ1", none)

/-- A row whose decoding fails and leaves the destination as it was. -/
def badRow : Row where
  StructScan := fun d => (d, some (GoError.failure "missing destination name extra"))

/-- The double quote character. -/
def dquote : Char := Char.ofNat 34

/-! ## Decimal rendering reads back -/

theorem digitVal_digitChar (k : Nat) (hk : k < 10) : digitVal (Nat.digitChar k) = some k := by
  interval_cases k <;> decide

theorem parseNatAux_toDigitsCore (fuel : Nat) :
    ∀ (n : Nat) (ds : List Char), n < fuel →
      ∃ l : List Char, Nat.toDigitsCore 10 fuel n ds = l ++ ds ∧ l ≠ [] ∧
        (∀ c ∈ l, c ≠ '-') ∧
        ∀ (acc : Nat) (rest : List Char),
          parseNatAux acc (l ++ rest) = parseNatAux (acc * 10 ^ l.length + n) rest := by
  induction fuel with
  | zero => intro n ds h; omega
  | succ fuel ih =>
    intro n ds h
    have hd : digitVal (Nat.digitChar (n % 10)) = some (n % 10) :=
      digitVal_digitChar _ (Nat.mod_lt _ (by decide))
    have hne : Nat.digitChar (n % 10) ≠ '-' := by
      intro hc
      rw [hc] at hd
      have hm : digitVal '-' = none := by decide
      rw [hm] at hd
      cases hd
    by_cases h0 : n / 10 = 0
    · refine ⟨[Nat.digitChar (n % 10)], ?_, by simp, ?_, ?_⟩
      · simp [Nat.toDigitsCore, h0]
      · intro c hc
        simp at hc
        rw [hc]; exact hne
      · intro acc rest
        have hn : n % 10 = n := Nat.mod_eq_of_lt (by omega)
        simp only [List.singleton_append, parseNatAux, hd, List.length_singleton, pow_one]
        rw [hn]
        rfl
    · have hlt : n / 10 < fuel := by omega
      obtain ⟨l, hl, hl0, hl1, hl2⟩ := ih (n / 10) (Nat.digitChar (n % 10) :: ds) hlt
      refine ⟨l ++ [Nat.digitChar (n % 10)], ?_, by simp, ?_, ?_⟩
      · simp [Nat.toDigitsCore, h0, hl]
      · intro c hc
        simp at hc
        rcases hc with hc | hc
        · exact hl1 c hc
        · rw [hc]; exact hne
      · intro acc rest
        rw [List.append_assoc, hl2]
        simp only [List.singleton_append, parseNatAux, hd, List.length_append, List.length_singleton]
        congr 1
        rw [pow_succ]
        have := Nat.div_add_mod n 10
        nlinarith [Nat.div_add_mod n 10]

theorem parseNat_toDigits (n : Nat) :
    parseNat (Nat.toDigits 10 n) = some n ∧ ∀ c ∈ Nat.toDigits 10 n, c ≠ '-' := by
  obtain ⟨l, hl, hl0, hl1, hl2⟩ := parseNatAux_toDigitsCore (n + 1) n [] (Nat.lt_succ_self n)
  have hl' : Nat.toDigits 10 n = l := by simpa [Nat.toDigits] using hl
  rw [hl']
  refine ⟨?_, hl1⟩
  have := hl2 0 []
  simp [parseNatAux] at this
  simp [parseNat, hl0, this]

theorem parseInt_fmtInt (n : Int) : parseInt (fmtInt n) = some n := by
  cases n with
  | ofNat k =>
    obtain ⟨h1, h2⟩ := parseNat_toDigits k
    simp only [fmtInt]
    cases hk : Nat.toDigits 10 k with
    | nil => rw [hk] at h1; simp [parseNat] at h1
    | cons c cs =>
      rw [hk] at h1 h2
      have hc : c ≠ '-' := h2 c (by simp)
      simp [parseInt, hc, h1]
  | negSucc k =>
    obtain ⟨h1, _⟩ := parseNat_toDigits (k + 1)
    simp [fmtInt, parseInt, h1, Int.negSucc_eq]

/-! ## The rendered statements -/

theorem QualifiedName_eq (tb : SequenceBuilder) :
    tb.QualifiedName = "\"" ++ tb.db ++ "\".\"" ++ tb.schema ++ "\".\"" ++ tb.name ++ "\"" := by
  apply String.ext
  simp [SequenceBuilder.QualifiedName, Sprintf, sprintfAux, fmtVerb]

theorem Drop_eq (tb : SequenceBuilder) : tb.Drop = "DROP SEQUENCE " ++ tb.QualifiedName := by
  apply String.ext
  simp [SequenceBuilder.Drop, Sprintf, sprintfAux, fmtVerb]

theorem Show_eq (tb : SequenceBuilder) :
    tb.Show = "SHOW SEQUENCES LIKE '" ++ tb.name ++ "' IN SCHEMA \"" ++ tb.db ++ "\".\""
      ++ tb.schema ++ "\"" := by
  apply String.ext
  simp [SequenceBuilder.Show, Sprintf, sprintfAux, fmtVerb]

theorem ChangeComment_eq (tb : SequenceBuilder) (comment : String) :
    tb.ChangeComment comment
      = "ALTER SEQUENCE " ++ tb.QualifiedName ++ " SET COMMENT = '" ++ comment ++ "'" := by
  apply String.ext
  simp [SequenceBuilder.ChangeComment, Sprintf, sprintfAux, fmtVerb]

theorem Rename_eq (tb : SequenceBuilder) (name : String) :
    tb.Rename name = "ALTER SEQUENCE " ++ tb.QualifiedName ++ " RENAME TO \"" ++ tb.db
      ++ "\".\"" ++ tb.schema ++ "\".\"" ++ name ++ "\"" := by
  apply String.ext
  simp [SequenceBuilder.Rename, Sprintf, sprintfAux, fmtVerb]

/-- The three optional clauses of the creation statement. -/
theorem Create_eq (tb : SequenceBuilder) :
    tb.Create = "CREATE SEQUENCE " ++ tb.QualifiedName
      ++ (if tb.start ≠ 1 then " START = " ++ String.mk (fmtInt tb.start) else "")
      ++ (if tb.increment ≠ 1 then " INCREMENT = " ++ String.mk (fmtInt tb.increment) else "")
      ++ (if tb.comment ≠ "" then " COMMENT = '" ++ EscapeString tb.comment ++ "'" else "") := by
  apply String.ext
  by_cases h1 : tb.start = 1 <;> by_cases h2 : tb.increment = 1 <;> by_cases h3 : tb.comment = ""
    <;> simp [SequenceBuilder.Create, Sprintf, sprintfAux, fmtVerb, h1, h2, h3]

theorem unescapeChars_escapeChars (cs : List Char) :
    unescapeChars (escapeChars cs) = some cs := by
  induction cs with
  | nil => rfl
  | cons c cs ih =>
    by_cases hc : c = quote
    · simp [escapeChars, unescapeChars, hc, ih]
    · rw [escapeChars, if_neg hc, unescapeChars.eq_def]
      simp [hc, ih]

theorem readLiteral_escapeChars (cs : List Char) :
    readLiteral (escapeChars cs ++ [quote]) = some (cs, []) := by
  induction cs with
  | nil => simp [escapeChars, readLiteral]
  | cons c cs ih =>
    by_cases hc : c = quote
    · simp [escapeChars, readLiteral, hc, ih]
    · rw [escapeChars, if_neg hc, List.cons_append, readLiteral.eq_def]
      simp [hc, ih]

theorem EscapeString_injective (a b : String) (h : EscapeString a = EscapeString b) : a = b := by
  have h1 := unescapeChars_escapeChars a.data
  have h2 := unescapeChars_escapeChars b.data
  have hd : escapeChars a.data = escapeChars b.data := by
    exact congrArg String.data h
  rw [hd, h2] at h1
  exact String.ext (Option.some.inj h1).symm

/-! ## Claims -/

/-- C1 (fails on the code): at the comment `it's` the method `ChangeComment`
interpolates the text verbatim, so the statement differs from the one built with
the escaping that `Create` applies, and the literal of the statement is closed by
the quote of the comment, leaving `s'` outside; `Create` on the same comment
writes the escaped text. -/
theorem ChangeComment_quote_unescaped :
    (Sequence "s" "d" "sc").ChangeComment "it's"
        = "ALTER SEQUENCE \"d\".\"sc\".\"s\" SET COMMENT = 'it's'" ∧
      (Sequence "s" "d" "sc").ChangeComment "it's"
        ≠ "ALTER SEQUENCE " ++ (Sequence "s" "d" "sc").QualifiedName ++ " SET COMMENT = '"
            ++ EscapeString "it's" ++ "'" ∧
      readLiteral ("it's".data ++ [quote]) = some ("it".data, "s'".data) ∧
      ((Sequence "s" "d" "sc").WithComment "it's").Create
        = "CREATE SEQUENCE \"d\".\"sc\".\"s\" COMMENT = '" ++ EscapeString "it's" ++ "'" := by
  decide

/-- C2: for every descriptor state, `Create` is `CREATE SEQUENCE`, the qualified
name, then the START clause when start differs from 1, then the INCREMENT clause
when increment differs from 1, then the COMMENT clause with the escaped comment
when the comment is not empty, in this order; the numbers are printed in decimal,
so that reading the printed text as a decimal numeral gives back the integer,
whatever its sign. -/
theorem Create_clauses (tb : SequenceBuilder) :
    tb.Create = "CREATE SEQUENCE " ++ tb.QualifiedName
        ++ (if tb.start ≠ 1 then " START = " ++ String.mk (fmtInt tb.start) else "")
        ++ (if tb.increment ≠ 1 then " INCREMENT = " ++ String.mk (fmtInt tb.increment) else "")
        ++ (if tb.comment ≠ "" then " COMMENT = '" ++ EscapeString tb.comment ++ "'" else "") ∧
      parseInt (fmtInt tb.start) = some tb.start ∧
      parseInt (fmtInt tb.increment) = some tb.increment :=
  ⟨Create_eq tb, parseInt_fmtInt tb.start, parseInt_fmtInt tb.increment⟩

/-- C3: for a non-empty comment `c`, `Create` on a fresh descriptor with that
comment ends with the COMMENT clause whose literal holds the escaped comment;
unescaping the escaped comment gives `c` back, the escaping is injective, and
the literal read from its opening quote denotes exactly `c` and ends at the last
character of the statement, so no quote of `c` closes it early. -/
theorem Create_comment_roundtrip (n d s c : String) (hc : c ≠ "") :
    ((Sequence n d s).WithComment c).Create
        = "CREATE SEQUENCE " ++ (Sequence n d s).QualifiedName ++ " COMMENT = '"
            ++ EscapeString c ++ "'" ∧
      UnescapeString (EscapeString c) = some c ∧
      (∀ c2 : String, EscapeString c2 = EscapeString c → c2 = c) ∧
      readLiteral ((EscapeString c ++ "'").data) = some (c.data, []) := by
  refine ⟨?_, ?_, ?_, ?_⟩
  · rw [Create_eq]
    apply String.ext
    simp [SequenceBuilder.WithComment, Sequence, hc, SequenceBuilder.QualifiedName]
  · simp [UnescapeString, EscapeString, unescapeChars_escapeChars]
  · intro c2 h
    exact EscapeString_injective c2 c h
  · exact readLiteral_escapeChars c.data

/-- Witness of C3 at a comment holding a quote and a backslash. -/
theorem Create_comment_roundtrip_witness :
    ((Sequence "s" "d" "sc").WithComment "it's a\\b").Create
        = "CREATE SEQUENCE " ++ (Sequence "s" "d" "sc").QualifiedName ++ " COMMENT = '"
            ++ EscapeString "it's a\\b" ++ "'" ∧
      UnescapeString (EscapeString "it's a\\b") = some "it's a\\b" ∧
      (∀ c2 : String, EscapeString c2 = EscapeString "it's a\\b" → c2 = "it's a\\b") ∧
      readLiteral ((EscapeString "it's a\\b" ++ "'").data) = some ("it's a\\b".data, []) :=
  Create_comment_roundtrip "s" "d" "sc" "it's a\\b" (by decide)

/-- C4: the qualified name of `Sequence(name, db, schema)` is the database, the
schema and the name, each between double quotes and otherwise unchanged, joined
by dots in this order. -/
theorem Sequence_QualifiedName (name db schema : String) :
    (Sequence name db schema).QualifiedName
      = "\"" ++ db ++ "\".\"" ++ schema ++ "\".\"" ++ name ++ "\"" := by
  rw [QualifiedName_eq]
  rfl

/-- C5: a fresh descriptor has start 1, increment 1 and the empty comment, and
its `Create` is `CREATE SEQUENCE` followed by the qualified name and nothing
else. -/
theorem Sequence_defaults_Create (name db schema : String) :
    (Sequence name db schema).start = 1 ∧ (Sequence name db schema).increment = 1 ∧
      (Sequence name db schema).comment = "" ∧
      (Sequence name db schema).Create
        = "CREATE SEQUENCE \"" ++ db ++ "\".\"" ++ schema ++ "\".\"" ++ name ++ "\"" := by
  refine ⟨rfl, rfl, rfl, ?_⟩
  rw [Create_eq, QualifiedName_eq]
  apply String.ext
  simp [Sequence]

/-- C6: `Drop` is `DROP SEQUENCE` followed by the qualified name, and neither
`WithStart`, `WithIncrement` nor `WithComment`, with any argument, changes what
`Drop` returns. -/
theorem Drop_spec (tb : SequenceBuilder) :
    tb.Drop = "DROP SEQUENCE " ++ tb.QualifiedName ∧
      tb.Drop = "DROP SEQUENCE \"" ++ tb.db ++ "\".\"" ++ tb.schema ++ "\".\"" ++ tb.name ++ "\"" ∧
      (∀ n : Int, (tb.WithStart n).Drop = tb.Drop) ∧
      (∀ n : Int, (tb.WithIncrement n).Drop = tb.Drop) ∧
      (∀ c : String, (tb.WithComment c).Drop = tb.Drop) := by
  refine ⟨Drop_eq tb, ?_, fun _ => rfl, fun _ => rfl, fun _ => rfl⟩
  rw [Drop_eq, QualifiedName_eq]
  apply String.ext
  simp

/-- C7: `Rename(newName)` is `ALTER SEQUENCE`, the qualified name, `RENAME TO`
and the qualified name of the descriptor with the same database and schema and
the new name; the two paths differ in the name segment only. -/
theorem Rename_spec (tb : SequenceBuilder) (newName : String) :
    tb.Rename newName = "ALTER SEQUENCE " ++ tb.QualifiedName ++ " RENAME TO "
        ++ (Sequence newName tb.db tb.schema).QualifiedName ∧
      (Sequence newName tb.db tb.schema).db = tb.db ∧
      (Sequence newName tb.db tb.schema).schema = tb.schema ∧
      (Sequence newName tb.db tb.schema).name = newName := by
  refine ⟨?_, rfl, rfl, rfl⟩
  rw [Rename_eq, QualifiedName_eq (Sequence newName tb.db tb.schema)]
  apply String.ext
  simp [Sequence]

/-- C8: `Show` is `SHOW SEQUENCES LIKE`, the name between single quotes exactly as
stored, whatever characters it holds, then `IN SCHEMA` and the quoted database
and schema. -/
theorem Show_spec (tb : SequenceBuilder) :
    tb.Show = "SHOW SEQUENCES LIKE '" ++ tb.name ++ "' IN SCHEMA \"" ++ tb.db ++ "\".\""
      ++ tb.schema ++ "\"" :=
  Show_eq tb

/-- C9: on a receiver `p` that points to the builder `v`, each setter returns the
pointer `p` itself and leaves at `p` the builder `v` with its own field set to
the argument and the five other fields as they were; every other builder of the
heap is untouched, and calling the same setter again keeps the last argument. -/
theorem setters_frame (h : Heap) (p : Ptr) (v : SequenceBuilder) (c c2 : String) (n n2 : Int)
    (hv : h[p]? = some v) :
    (Heap.WithComment h p c
        = some (h.set p ⟨v.name, v.db, v.schema, v.increment, c, v.start⟩, p) ∧
      Heap.WithIncrement h p n
        = some (h.set p ⟨v.name, v.db, v.schema, n, v.comment, v.start⟩, p) ∧
      Heap.WithStart h p n
        = some (h.set p ⟨v.name, v.db, v.schema, v.increment, v.comment, n⟩, p)) ∧
    (∀ (q : Ptr) (r : Heap × Ptr), q ≠ p →
        (Heap.WithComment h p c = some r ∨ Heap.WithIncrement h p n = some r
          ∨ Heap.WithStart h p n = some r) → r.1[q]? = h[q]?) ∧
    ((Heap.WithComment h p c).bind (fun r => Heap.WithComment r.1 r.2 c2)
        = Heap.WithComment h p c2 ∧
      (Heap.WithIncrement h p n).bind (fun r => Heap.WithIncrement r.1 r.2 n2)
        = Heap.WithIncrement h p n2 ∧
      (Heap.WithStart h p n).bind (fun r => Heap.WithStart r.1 r.2 n2)
        = Heap.WithStart h p n2) := by
  have hlt : p < h.length := by
    rcases Nat.lt_or_ge p h.length with hlt | hge
    · exact hlt
    · rw [List.getElem?_eq_none hge] at hv
      cases hv
  refine ⟨⟨?_, ?_, ?_⟩, ?_, ⟨?_, ?_, ?_⟩⟩
  · simp [Heap.WithComment, hv, SequenceBuilder.WithComment]
  · simp [Heap.WithIncrement, hv, SequenceBuilder.WithIncrement]
  · simp [Heap.WithStart, hv, SequenceBuilder.WithStart]
  · intro q r hq hr
    have hne : p ≠ q := fun e => hq e.symm
    rcases hr with hr | hr | hr
    · simp only [Heap.WithComment, hv, Option.some.injEq] at hr
      rw [← hr]
      exact List.getElem?_set_ne hne
    · simp only [Heap.WithIncrement, hv, Option.some.injEq] at hr
      rw [← hr]
      exact List.getElem?_set_ne hne
    · simp only [Heap.WithStart, hv, Option.some.injEq] at hr
      rw [← hr]
      exact List.getElem?_set_ne hne
  · simp [Heap.WithComment, hv, SequenceBuilder.WithComment, hlt]
  · simp [Heap.WithIncrement, hv, SequenceBuilder.WithIncrement, hlt]
  · simp [Heap.WithStart, hv, SequenceBuilder.WithStart, hlt]

/-- Witness of C9 on the heap that holds one fresh descriptor. -/
theorem setters_frame_witness :
    (Heap.WithComment [Sequence "s" "d" "sc"] 0 "first"
        = some ([Sequence "s" "d" "sc"].set 0 ⟨"s", "d", "sc", 1, "first", 1⟩, 0) ∧
      Heap.WithIncrement [Sequence "s" "d" "sc"] 0 7
        = some ([Sequence "s" "d" "sc"].set 0 ⟨"s", "d", "sc", 7, "", 1⟩, 0) ∧
      Heap.WithStart [Sequence "s" "d" "sc"] 0 7
        = some ([Sequence "s" "d" "sc"].set 0 ⟨"s", "d", "sc", 1, "", 7⟩, 0)) ∧
    (∀ (q : Ptr) (r : Heap × Ptr), q ≠ 0 →
        (Heap.WithComment [Sequence "s" "d" "sc"] 0 "first" = some r
          ∨ Heap.WithIncrement [Sequence "s" "d" "sc"] 0 7 = some r
          ∨ Heap.WithStart [Sequence "s" "d" "sc"] 0 7 = some r) →
        r.1[q]? = [Sequence "s" "d" "sc"][q]?) ∧
    ((Heap.WithComment [Sequence "s" "d" "sc"] 0 "first").bind
          (fun r => Heap.WithComment r.1 r.2 "second")
        = Heap.WithComment [Sequence "s" "d" "sc"] 0 "second" ∧
      (Heap.WithIncrement [Sequence "s" "d" "sc"] 0 7).bind
          (fun r => Heap.WithIncrement r.1 r.2 (-3))
        = Heap.WithIncrement [Sequence "s" "d" "sc"] 0 (-3) ∧
      (Heap.WithStart [Sequence "s" "d" "sc"] 0 7).bind
          (fun r => Heap.WithStart r.1 r.2 (-3))
        = Heap.WithStart [Sequence "s" "d" "sc"] 0 (-3)) :=
  setters_frame [Sequence "s" "d" "sc"] 0 (Sequence "s" "d" "sc") "first" "second" 7 (-3) rfl

/-- C10 as stated fails: on a handle whose query fails with the error
`connection refused`, the returned error is that error itself; it is not an
annotation of it, and its text does not hold the statement `SHOW SEQUENCES`. -/
theorem ListSequences_query_error_not_wrapped :
    (ListSequences failingDB).records = none ∧
      (ListSequences failingDB).err = some (GoError.failure "connection refused") ∧
      (ListSequences failingDB).err.map
          (fun r => r.wraps (GoError.failure "connection refused")) = some false ∧
      ¬ (∃ msg : String, (ListSequences failingDB).err
          = some (GoError.withMessage (GoError.failure "connection refused") msg)) ∧
      (ListSequences failingDB).err.map
          (fun r => decide (List.IsInfix "SHOW SEQUENCES".data r.Error.data)) = some false := by
  refine ⟨rfl, rfl, rfl, ?_, by decide⟩
  rintro ⟨msg, hmsg⟩
  cases hmsg

/-- C10 as amended: when the query call returns the error `e`, `ListSequences`
returns the nil slice and the error `e` itself, unchanged. -/
theorem ListSequences_query_error (sdb : DB) (e : GoError)
    (hq : sdb.Queryx "SHOW SEQUENCES" = Except.error e) :
    (ListSequences sdb).records = none ∧ (ListSequences sdb).err = some e := by
  simp [ListSequences, hq]

/-- Witness of the amended C10 on the handle whose query fails. -/
theorem ListSequences_query_error_witness :
    (ListSequences failingDB).records = none ∧
      (ListSequences failingDB).err = some (GoError.failure "connection refused") :=
  ListSequences_query_error failingDB (GoError.failure "connection refused") rfl

/-! ## Helper lemmas for the remaining renderers and the listing -/

theorem RemoveComment_eq (tb : SequenceBuilder) :
    tb.RemoveComment = "ALTER SEQUENCE " ++ tb.QualifiedName ++ " UNSET COMMENT" := by
  apply String.ext
  simp [SequenceBuilder.RemoveComment, Sprintf, sprintfAux, fmtVerb]

theorem Increment_eq (tb : SequenceBuilder) :
    tb.Increment = "SELECT " ++ tb.QualifiedName ++ ".nextval" := by
  apply String.ext
  simp [SequenceBuilder.Increment, Sprintf, sprintfAux, fmtVerb]

/-- A scan over rows that all decode appends their records in order. -/
theorem scanLoop_map_ok (recs : List sequence) :
    ∀ (iterErr : Option GoError) (dest : List sequence),
      scanLoop (recs.map Except.ok) iterErr dest = (dest ++ recs, iterErr) := by
  induction recs with
  | nil => intro iterErr dest; simp [scanLoop]
  | cons r rest ih =>
    intro iterErr dest
    simp [scanLoop, ih]

/-- The two outcomes of `ListSequences` after a successful query. -/
theorem ListSequences_of_query_ok (sdb : DB) (rows : Rows)
    (hq : sdb.Queryx "SHOW SEQUENCES" = Except.ok rows) :
    ListSequences sdb =
      if rows.scanErr = some GoError.ErrNoRows then
        ⟨none, none, ["[DEBUG] no sequence found"], true⟩
      else
        ⟨some rows.decoded,
          Wrapf rows.scanErr "unable to scan row for %s" [Arg.str "SHOW SEQUENCES"], [], true⟩ := by
  simp [ListSequences, hq, StructScan]

/-- A segment free of the separator is determined by the text it starts. -/
theorem segment_unique (q : Char) :
    ∀ (a b r1 r2 : List Char), q ∉ a → q ∉ b → a ++ q :: r1 = b ++ q :: r2 →
      a = b ∧ r1 = r2 := by
  intro a
  induction a with
  | nil =>
    intro b r1 r2 _ hb h
    cases b with
    | nil => simpa using h
    | cons y ys =>
      simp only [List.nil_append, List.cons_append, List.cons.injEq] at h
      exact absurd (h.1 ▸ List.mem_cons_self y ys) hb
  | cons x xs ih =>
    intro b r1 r2 ha hb h
    cases b with
    | nil =>
      simp only [List.nil_append, List.cons_append, List.cons.injEq] at h
      exact absurd (h.1 ▸ List.mem_cons_self x xs) ha
    | cons y ys =>
      simp only [List.cons_append, List.cons.injEq] at h
      have hxs : q ∉ xs := fun hm => ha (List.mem_cons_of_mem x hm)
      have hys : q ∉ ys := fun hm => hb (List.mem_cons_of_mem y hm)
      obtain ⟨h1, h2⟩ := ih ys r1 r2 hxs hys h.2
      exact ⟨by rw [h.1, h1], h2⟩

/-- C11: when the query succeeds and the scan decodes no record, `ListSequences`
returns an empty collection and a nil error, both when the scan reports no error
(the empty slice is returned) and when it reports `sql.ErrNoRows` (the nil
slice is returned). -/
theorem ListSequences_zero_rows (sdb : DB) (rows : Rows)
    (hq : sdb.Queryx "SHOW SEQUENCES" = Except.ok rows)
    (hzero : (StructScan rows []).1 = [])
    (hscan : (StructScan rows []).2 = none ∨ (StructScan rows []).2 = some GoError.ErrNoRows) :
    sliceLen (ListSequences sdb).records = 0 ∧ (ListSequences sdb).err = none ∧
      ((StructScan rows []).2 = none → (ListSequences sdb).records = some []) ∧
      ((StructScan rows []).2 = some GoError.ErrNoRows → (ListSequences sdb).records = none) := by
  have hz : rows.decoded = [] := by simpa [StructScan] using hzero
  have hs : rows.scanErr = none ∨ rows.scanErr = some GoError.ErrNoRows := by
    simpa [StructScan] using hscan
  rw [ListSequences_of_query_ok sdb rows hq]
  rcases hs with hs | hs
  · simp [hs, hz, sliceLen, Wrapf, StructScan]
  · simp [hs, sliceLen, StructScan]

/-- Witness of C11 on a store without sequences. -/
theorem ListSequences_zero_rows_witness :
    sliceLen (ListSequences emptyDB).records = 0 ∧ (ListSequences emptyDB).err = none ∧
      ((StructScan ⟨[], none⟩ []).2 = none → (ListSequences emptyDB).records = some []) ∧
      ((StructScan ⟨[], none⟩ []).2 = some GoError.ErrNoRows →
        (ListSequences emptyDB).records = none) :=
  ListSequences_zero_rows emptyDB ⟨[], none⟩ rfl rfl (Or.inl rfl)

/-- C12: when the query succeeds on a cursor whose rows all decode, to the
records `recs` in the order of the store, and the iteration ends without error,
`ListSequences` returns exactly `recs`, as many records as there are rows, in
that order, and a nil error. -/
theorem ListSequences_rows_in_order (sdb : DB) (c : Cursor) (recs : List sequence)
    (hq : sdb.Queryx "SHOW SEQUENCES" = Except.ok c.toRows)
    (hdec : c.results = recs.map Except.ok) (hiter : c.iterErr = none) :
    (ListSequences sdb).records = some recs ∧ (ListSequences sdb).err = none ∧
      sliceLen (ListSequences sdb).records = c.results.length := by
  have hrows : c.toRows = ⟨recs, none⟩ := by
    simp [Cursor.toRows, hdec, hiter, scanLoop_map_ok]
  rw [ListSequences_of_query_ok sdb c.toRows hq, hrows, hdec]
  simp [Wrapf, sliceLen]

/-- Witness of C12 on three rows, the first and the last equal and the middle
one smaller: they come back as they are. -/
theorem ListSequences_rows_in_order_witness :
    (ListSequences threeRowsDB).records
        = some [sampleRecord "B", sampleRecord "A", sampleRecord "B"] ∧
      (ListSequences threeRowsDB).err = none ∧
      sliceLen (ListSequences threeRowsDB).records = threeRows.results.length :=
  ListSequences_rows_in_order threeRowsDB threeRows
    [sampleRecord "B", sampleRecord "A", sampleRecord "B"] rfl rfl rfl

/-- C13: `ScanSequence` returns the record as the decoder left it and the
decoder's error itself: the returned error is non-nil exactly when the decoder's
is, it is that same value, and it is nil when decoding succeeds. -/
theorem ScanSequence_spec (row : Row) :
    (ScanSequence row).1
        = (row.StructScan ⟨none, none, none, none, none, none, none, none⟩).1 ∧
      (ScanSequence row).2
        = (row.StructScan ⟨none, none, none, none, none, none, none, none⟩).2 ∧
      ((ScanSequence row).2 ≠ none ↔
        (row.StructScan ⟨none, none, none, none, none, none, none, none⟩).2 ≠ none) ∧
      (∀ e : GoError,
        (row.StructScan ⟨none, none, none, none, none, none, none, none⟩).2 = some e →
          (ScanSequence row).2 = some e) ∧
      ((row.StructScan ⟨none, none, none, none, none, none, none, none⟩).2 = none →
        (ScanSequence row).2 = none) := by
  refine ⟨rfl, rfl, Iff.rfl, fun e h => ?_, fun h => ?_⟩
  · simpa [ScanSequence] using h
  · simpa [ScanSequence] using h

/-- Witness of C13 on a row whose decoding fails and on a row that decodes. -/
theorem ScanSequence_spec_witness :
    (ScanSequence badRow).2 = some (GoError.failure "missing destination name extra") ∧
      (ScanSequence goodRow).2 = none ∧ (ScanSequence goodRow).1 = sampleRecord "SEQ1" :=
  ⟨(ScanSequence_spec badRow).2.2.2.1 _ rfl, (ScanSequence_spec goodRow).2.2.2.2 rfl,
    (ScanSequence_spec goodRow).1⟩

/-- C14: `RemoveComment` is `ALTER SEQUENCE`, the qualified name and
`UNSET COMMENT`. -/
theorem RemoveComment_spec (tb : SequenceBuilder) :
    tb.RemoveComment = "ALTER SEQUENCE " ++ tb.QualifiedName ++ " UNSET COMMENT" :=
  RemoveComment_eq tb

/-- C15: `Increment` is `SELECT`, the qualified name and `.nextval`. -/
theorem Increment_spec (tb : SequenceBuilder) :
    tb.Increment = "SELECT " ++ tb.QualifiedName ++ ".nextval" :=
  Increment_eq tb

/-- C16: on segments that hold no double quote, equal qualified names come from
equal databases, schemas and names. -/
theorem QualifiedName_injective (db1 schema1 name1 db2 schema2 name2 : String)
    (hd1 : dquote ∉ db1.data) (hs1 : dquote ∉ schema1.data) (hn1 : dquote ∉ name1.data)
    (hd2 : dquote ∉ db2.data) (hs2 : dquote ∉ schema2.data) (hn2 : dquote ∉ name2.data)
    (h : (Sequence name1 db1 schema1).QualifiedName
      = (Sequence name2 db2 schema2).QualifiedName) :
    db1 = db2 ∧ schema1 = schema2 ∧ name1 = name2 := by
  rw [QualifiedName_eq, QualifiedName_eq] at h
  have hdata := congrArg String.data h
  simp only [Sequence, String.data_append] at hdata
  simp only [List.append_assoc, List.cons_append, List.nil_append, List.cons.injEq,
    true_and] at hdata
  obtain ⟨e1, hrest⟩ := segment_unique dquote _ _ _ _ hd1 hd2 hdata
  simp only [List.cons.injEq, true_and] at hrest
  obtain ⟨e2, hrest2⟩ := segment_unique dquote _ _ _ _ hs1 hs2 hrest
  simp only [List.cons.injEq, true_and] at hrest2
  obtain ⟨e3, _⟩ := segment_unique dquote _ _ _ _ hn1 hn2 hrest2
  exact ⟨String.ext e1, String.ext e2, String.ext e3⟩

/-- Witness of C16 on segments that hold dots. -/
theorem QualifiedName_injective_witness :
    "my.db" = "my.db" ∧ "a.b" = "a.b" ∧ "seq.1" = "seq.1" :=
  QualifiedName_injective "my.db" "a.b" "seq.1" "my.db" "a.b" "seq.1"
    (by decide) (by decide) (by decide) (by decide) (by decide) (by decide) rfl

/-- C17: the descriptors with database `a"."b` and schema `c`, and with database
`a` and schema `b"."c`, both named `d`, are distinct and have the same qualified
name; the qualified name is not injective on triples of segments. -/
theorem QualifiedName_not_injective :
    (Sequence "d" "a\".\"b" "c").QualifiedName = (Sequence "d" "a" "b\".\"c").QualifiedName ∧
      (Sequence "d" "a\".\"b" "c") ≠ (Sequence "d" "a" "b\".\"c") ∧
      ¬ Function.Injective
          (fun t : String × String × String => (Sequence t.2.2 t.1 t.2.1).QualifiedName) := by
  refine ⟨by decide, by decide, ?_⟩
  intro hinj
  have h := @hinj ("a\".\"b", "c", "d") ("a", "b\".\"c", "d") (by decide)
  revert h
  decide

/-- C18: two descriptors with the same database, schema and name give the same
`QualifiedName`, `Drop`, `Show`, `RemoveComment`, `Increment`, `Rename(x)` and
`ChangeComment(x)`, whatever their start, increment and comment; `Create` does
read the three other fields: changing the start, the increment or the comment
of a descriptor changes its result. -/
theorem renderers_read_path_only (tb1 tb2 : SequenceBuilder) (x : String)
    (hdb : tb1.db = tb2.db) (hschema : tb1.schema = tb2.schema) (hname : tb1.name = tb2.name) :
    (tb1.QualifiedName = tb2.QualifiedName ∧ tb1.Drop = tb2.Drop ∧ tb1.Show = tb2.Show ∧
      tb1.RemoveComment = tb2.RemoveComment ∧ tb1.Increment = tb2.Increment ∧
      tb1.Rename x = tb2.Rename x ∧ tb1.ChangeComment x = tb2.ChangeComment x) ∧
    ((Sequence "s" "d" "sc").Create ≠ ((Sequence "s" "d" "sc").WithStart 5).Create ∧
      (Sequence "s" "d" "sc").Create ≠ ((Sequence "s" "d" "sc").WithIncrement 3).Create ∧
      (Sequence "s" "d" "sc").Create ≠ ((Sequence "s" "d" "sc").WithComment "c").Create) := by
  have hqn : tb1.QualifiedName = tb2.QualifiedName := by
    simp only [SequenceBuilder.QualifiedName, hdb, hschema, hname]
  refine ⟨⟨hqn, ?_, ?_, ?_, ?_, ?_, ?_⟩, by decide, by decide, by decide⟩
  · simp only [SequenceBuilder.Drop, hqn]
  · simp only [SequenceBuilder.Show, hdb, hschema, hname]
  · simp only [SequenceBuilder.RemoveComment, hqn]
  · simp only [SequenceBuilder.Increment, hqn]
  · simp only [SequenceBuilder.Rename, hqn, hdb, hschema]
  · simp only [SequenceBuilder.ChangeComment, hqn]

/-- Witness of C18 on two descriptors that differ in start, increment and
comment only. -/
theorem renderers_read_path_only_witness :
    ((Sequence "s" "d" "sc").QualifiedName
        = (SequenceBuilder.mk "s" "d" "sc" (-2) "it's" 0).QualifiedName ∧
      (Sequence "s" "d" "sc").Drop = (SequenceBuilder.mk "s" "d" "sc" (-2) "it's" 0).Drop ∧
      (Sequence "s" "d" "sc").Show = (SequenceBuilder.mk "s" "d" "sc" (-2) "it's" 0).Show ∧
      (Sequence "s" "d" "sc").RemoveComment
        = (SequenceBuilder.mk "s" "d" "sc" (-2) "it's" 0).RemoveComment ∧
      (Sequence "s" "d" "sc").Increment
        = (SequenceBuilder.mk "s" "d" "sc" (-2) "it's" 0).Increment ∧
      (Sequence "s" "d" "sc").Rename "new"
        = (SequenceBuilder.mk "s" "d" "sc" (-2) "it's" 0).Rename "new" ∧
      (Sequence "s" "d" "sc").ChangeComment "new"
        = (SequenceBuilder.mk "s" "d" "sc" (-2) "it's" 0).ChangeComment "new") ∧
    ((Sequence "s" "d" "sc").Create ≠ ((Sequence "s" "d" "sc").WithStart 5).Create ∧
      (Sequence "s" "d" "sc").Create ≠ ((Sequence "s" "d" "sc").WithIncrement 3).Create ∧
      (Sequence "s" "d" "sc").Create ≠ ((Sequence "s" "d" "sc").WithComment "c").Create) :=
  renderers_read_path_only (Sequence "s" "d" "sc") (SequenceBuilder.mk "s" "d" "sc" (-2) "it's" 0)
    "new" rfl rfl rfl

/-- C19: `ListSequences` returns a non-nil error exactly when the query fails or
the scan returns an error other than `sql.ErrNoRows`; after a scan without error
the wrapping of nil is nil and so is the returned error, and a scan error equal
to `sql.ErrNoRows` gives the nil slice and a nil error. -/
theorem ListSequences_err_iff (sdb : DB) :
    ((ListSequences sdb).err ≠ none ↔
      ((∃ e : GoError, sdb.Queryx "SHOW SEQUENCES" = Except.error e) ∨
        ∃ (rows : Rows) (e : GoError), sdb.Queryx "SHOW SEQUENCES" = Except.ok rows ∧
          (StructScan rows []).2 = some e ∧ e ≠ GoError.ErrNoRows)) ∧
    (∀ rows : Rows, sdb.Queryx "SHOW SEQUENCES" = Except.ok rows →
      (StructScan rows []).2 = none →
        Wrapf (StructScan rows []).2 "unable to scan row for %s" [Arg.str "SHOW SEQUENCES"] = none
          ∧ (ListSequences sdb).err = none) ∧
    (∀ rows : Rows, sdb.Queryx "SHOW SEQUENCES" = Except.ok rows →
      (StructScan rows []).2 = some GoError.ErrNoRows →
        (ListSequences sdb).records = none ∧ (ListSequences sdb).err = none) := by
  refine ⟨?_, ?_, ?_⟩
  · cases hq : sdb.Queryx "SHOW SEQUENCES" with
    | error e => simp [ListSequences, hq]
    | ok rows =>
      rw [ListSequences_of_query_ok sdb rows hq]
      cases hs : rows.scanErr with
      | none => simp [StructScan, hs, Wrapf]
      | some e =>
        by_cases he : e = GoError.ErrNoRows
        · simp [StructScan, hs, he]
        · simp [StructScan, hs, he, Wrapf]
  · intro rows hq hs
    have hs2 : rows.scanErr = none := by simpa [StructScan] using hs
    rw [ListSequences_of_query_ok sdb rows hq]
    simp [StructScan, hs2, Wrapf]
  · intro rows hq hs
    have hs2 : rows.scanErr = some GoError.ErrNoRows := by simpa [StructScan] using hs
    rw [ListSequences_of_query_ok sdb rows hq]
    simp [hs2]

/-- Witness of C19: a scan that stops with a decoding error gives a non-nil
error, a scan that reports `sql.ErrNoRows` gives the nil slice and a nil error. -/
theorem ListSequences_err_iff_witness :
    (ListSequences brokenScanDB).err ≠ none ∧
      ((ListSequences noRowsDB).records = none ∧ (ListSequences noRowsDB).err = none) :=
  ⟨(ListSequences_err_iff brokenScanDB).1.2 (Or.inr ⟨_, _, rfl, rfl, by decide⟩),
    (ListSequences_err_iff noRowsDB).2.2 ⟨[], some GoError.ErrNoRows⟩ rfl rfl⟩

end Snowflake
